import Mathlib

/-!
Verification development for the trmnl-wthr-svr weather webhook server.

The Go source is shallowly embedded:
* `float64` values are idealized as exact rationals (`ℚ`); binary floating-point
  rounding and range artifacts are deliberately not modelled.
* `int64` values are `ℤ`; the only places where 64-bit wrap-around could matter
  (string parsing bounds in `strconv.ParseInt`) carry the explicit range check.
* The Go `map[string]any` records are association lists `List (String × GoVal)`
  looked up by first match.
* The Go `map[string]*hourlyBucket` is modelled as an association list in
  insertion order; Go map iteration order is unspecified, and the model resolves
  that nondeterminism deterministically (the emitted records are fed into a sort
  keyed by `dateutc`, modelled as a stable insertion sort).
-/

namespace TrmnlWthrSvr

/-- A dynamic value stored in a `map[string]any` record, covering exactly the
types inspected by the switches in `Historical` (weather.go lines 112–129 and
139–156): `float64`, `int64`, `int`, `json.Number`, `string`, and anything else
(which hits the `default` branch). -/
inductive GoVal where
  | vFloat64 (q : ℚ)
  | vInt64 (n : ℤ)
  | vInt (n : ℤ)
  | vJsonNumber (s : String)
  | vString (s : String)
  | vOther
deriving DecidableEq, Repr

/-- One raw record (`map[string]any`), as an association list. -/
abbrev Rec := List (String × GoVal)

/-- Numeric value of a decimal digit character. -/
def digitVal (c : Char) : ℤ := (c.toNat : ℤ) - 48

/-- Accumulate a digit list into an integer, most significant first. -/
def digitsToInt (ds : List Char) : ℤ := ds.foldl (fun a c => a * 10 + digitVal c) 0

/-- `strconv.ParseInt(s, 10, 64)`: optional sign, a nonempty all-digit body, and
an `int64` range check (Go reports `ErrRange` on overflow, which the caller
treats as a parse failure and skips). -/
def parseInt64 (s : String) : Option ℤ :=
  let cs := s.toList
  let signBody : Bool × List Char :=
    match cs with
    | '+' :: rest => (false, rest)
    | '-' :: rest => (true, rest)
    | rest => (false, rest)
  let ds := signBody.2
  if ds.isEmpty then none
  else if ds.all Char.isDigit then
    let v : ℤ := if signBody.1 then -(digitsToInt ds) else digitsToInt ds
    if -(2 ^ 63) ≤ v ∧ v ≤ 2 ^ 63 - 1 then some v else none
  else none

/-- Split a character list into its leading run of decimal digits and the rest. -/
def splitDigits : List Char → List Char × List Char
  | [] => ([], [])
  | c :: cs =>
    if c.isDigit then
      let dr := splitDigits cs
      (c :: dr.1, dr.2)
    else ([], c :: cs)

/-- `strconv.ParseFloat(s, 64)`, restricted to the plain decimal forms
`[sign] digits [. digits] [e|E [sign] digits]` (with at least one mantissa
digit), evaluated exactly in `ℚ`.  The exotic inputs Go additionally accepts
(hex floats, `inf`, `nan`, digit-group underscores) and the float64
overflow/underflow `ErrRange` cases are outside the idealization and are not
exercised by any claim. -/
def parseFloat64 (s : String) : Option ℚ :=
  let cs := s.toList
  let signBody : Bool × List Char :=
    match cs with
    | '+' :: rest => (false, rest)
    | '-' :: rest => (true, rest)
    | rest => (false, rest)
  let ipr := splitDigits signBody.2
  let fpr : List Char × List Char :=
    match ipr.2 with
    | '.' :: rest => splitDigits rest
    | _ => ([], ipr.2)
  if ipr.1.isEmpty ∧ fpr.1.isEmpty then none
  else
    let mant : ℚ := (digitsToInt (ipr.1 ++ fpr.1) : ℚ) / ((10 : ℚ) ^ fpr.1.length)
    let signedMant : ℚ := if signBody.1 then -mant else mant
    match fpr.2 with
    | [] => some signedMant
    | e :: rest =>
      if e = 'e' ∨ e = 'E' then
        let esignBody : Bool × List Char :=
          match rest with
          | '+' :: r => (false, r)
          | '-' :: r => (true, r)
          | r => (false, r)
        if esignBody.2.isEmpty then none
        else if esignBody.2.all Char.isDigit then
          let ex : ℤ := if esignBody.1 then -(digitsToInt esignBody.2) else digitsToInt esignBody.2
          some (signedMant * (10 : ℚ) ^ ex)
        else none
      else none

/-- Go conversion `int64(v)` for a `float64` `v`: truncation toward zero. -/
def goTruncToInt64 (q : ℚ) : ℤ := if 0 ≤ q then Rat.floor q else -(Rat.floor (-q))

/-- The timestamp type switch of `Historical` (weather.go lines 111–129):
`float64` is truncated, `int64` is taken as-is, `json.Number` and `string` go
through `strconv.ParseInt`-style parsing; anything else hits `default` and the
sample is skipped. -/
def parseTimestampMs : GoVal → Option ℤ
  | .vFloat64 v => some (goTruncToInt64 v)
  | .vInt64 v => some v
  | .vJsonNumber v => parseInt64 v
  | .vString v => parseInt64 v
  | _ => none

/-- The temperature type switch of `Historical` (weather.go lines 137–156):
`float64` as-is, `int` widened, `json.Number` and `string` via
`strconv.ParseFloat`; anything else (including `int64`!) hits `default`. -/
def parseTempf : GoVal → Option ℚ
  | .vFloat64 t => some t
  | .vInt t => some (t : ℚ)
  | .vJsonNumber t => parseFloat64 t
  | .vString t => parseFloat64 t
  | _ => none

/-- One iteration of the record loop of `Historical` (weather.go lines
102–156): a record contributes a `(timestampMs, tempf)` sample exactly when
both fields are present and both parse; otherwise it is skipped via
`continue`. -/
def parseSample (record : Rec) : Option (ℤ × ℚ) := do
  let tempValue ← record.lookup "tempf"
  let dateValue ← record.lookup "dateutc"
  let timestampMs ← parseTimestampMs dateValue
  let tempf ← parseTempf tempValue
  pure (timestampMs, tempf)

/-- The valid (parseable) samples of an input series, in input order. -/
def validSamples (records : List Rec) : List (ℤ × ℚ) := records.filterMap parseSample

/-- The bucket key of a sample.  The Go code keys buckets by the string
`time.Unix(timestampMs/1000, 0).UTC().Format("2006-01-02 15:00")`; Go `/` on
`int64` truncates toward zero (`Int.tdiv`), and the formatted date-hour string
is in bijection with the floor of those seconds over 3600 (Go's civil-date
conversion floors), so the key is modelled as that hour number. -/
def hourKey (timestampMs : ℤ) : ℤ := (Int.tdiv timestampMs 1000).fdiv 3600

/-- `hourStartMs := (timestampMs / 3600000) * 3600000` (weather.go line 162),
with Go's truncating division. -/
def hourStartMs (timestampMs : ℤ) : ℤ := Int.tdiv timestampMs 3600000 * 3600000

/-- `hourlyBucket` (weather.go lines 66–70).  `Count` is a Go `int`, only ever
incremented from zero, modelled as `ℕ`. -/
structure hourlyBucket where
  Sum : ℚ
  Count : ℕ
  First : ℤ
deriving DecidableEq, Repr

/-- Adding one sample to the bucket map (weather.go lines 158–167): if the key
is present the bucket's sum and count are updated in place, otherwise a fresh
bucket carrying `First := hourStartMs timestampMs` is inserted (at the end:
insertion order). -/
def updateBuckets (hkey : ℤ) (timestampMs : ℤ) (tempf : ℚ) :
    List (ℤ × hourlyBucket) → List (ℤ × hourlyBucket)
  | [] => [(hkey, { Sum := tempf, Count := 1, First := hourStartMs timestampMs })]
  | (k, b) :: rest =>
    if k = hkey then
      (k, { b with Sum := b.Sum + tempf, Count := b.Count + 1 }) :: rest
    else
      (k, b) :: updateBuckets hkey timestampMs tempf rest

/-- The whole record loop of `Historical` (weather.go lines 102–168). -/
def hourlyBucketsOf (recordFields : List Rec) : List (ℤ × hourlyBucket) :=
  recordFields.foldl
    (fun buckets record =>
      match parseSample record with
      | none => buckets
      | some s => updateBuckets (hourKey s.1) s.1 s.2 buckets)
    []

/-- `math.Round`: round to the nearest integer, half away from zero. -/
def mathRound (x : ℚ) : ℚ :=
  if 0 ≤ x then ((Rat.floor (x + 1 / 2) : ℤ) : ℚ) else -((Rat.floor (-x + 1 / 2) : ℤ) : ℚ)

/-- `avgTemp := math.Round((bucket.Sum/float64(bucket.Count))*10) / 10`
(weather.go line 176). -/
def avgTempOf (bucket : hourlyBucket) : ℚ :=
  mathRound (bucket.Sum / (bucket.Count : ℚ) * 10) / 10

/-- The emitted record of one bucket (weather.go lines 179–181). -/
def bucketRecord (bucket : hourlyBucket) : Rec :=
  [("tempf", GoVal.vFloat64 (avgTempOf bucket)), ("dateutc", GoVal.vInt64 bucket.First)]

/-- The emission loop (weather.go lines 173–185), guard `bucket.Count > 0`
included. -/
def emitBuckets (buckets : List (ℤ × hourlyBucket)) : List Rec :=
  buckets.filterMap (fun kb => if 0 < kb.2.Count then some (bucketRecord kb.2) else none)

/-- The sort key: `record["dateutc"].(int64)` (weather.go lines 189–190).  A
record without an `int64`-typed `dateutc` would make the Go type assertion
panic; the model maps it to `0`, and claim C10 proves the case unreachable on
emitted records. -/
def dateutcKey (record : Rec) : ℤ :=
  match record.lookup "dateutc" with
  | some (GoVal.vInt64 t) => t
  | _ => 0

/-- The comparison underlying `sort.Slice` (weather.go lines 188–192). -/
def recLe (a b : Rec) : Prop := dateutcKey a ≤ dateutcKey b

instance : DecidableRel recLe := fun a b => Int.decLe (dateutcKey a) (dateutcKey b)

instance : IsTotal Rec recLe := ⟨fun a b => Int.le_total (dateutcKey a) (dateutcKey b)⟩

instance : IsTrans Rec recLe := ⟨fun _ _ _ h1 h2 => le_trans h1 h2⟩

/-- The `sort.Slice` call, ascending by `dateutc` (deterministically modelled
as a stable insertion sort; the Go sort is unstable, but every claim involving
ties is settled with that nondeterminism in view). -/
def sortByDateutc (records : List Rec) : List Rec := List.insertionSort recLe records

/-- The pure aggregation core of `Historical` (weather.go lines 97–198),
applied to the raw `results.RecordFields`. -/
def aggregateHistorical (recordFields : List Rec) : List Rec :=
  sortByDateutc (emitBuckets (hourlyBucketsOf recordFields))

/-! ## Errors

Each constructor corresponds to one `return nil, err` / `fmt.Errorf` site; the
Go error message is recovered by `GoErr.errorChars` (as a character list, one
character per byte of the ASCII messages involved). -/

inductive GoErr where
  | sourceErr (msg : String)
  | unexpectedResponseCode (code : ℤ) (jsonResponse : String)
  | zeroDeviceRecords
  | noDeviceData (mac : String)
  | webhookTransportErr (msg : String)
  | webhookFailed (status : ℤ) (bodyExcerpt : String)
deriving DecidableEq, Repr

/-- The `Error()` string of each error, as a character list. -/
def GoErr.errorChars : GoErr → List Char
  | .sourceErr msg => msg.toList
  | .unexpectedResponseCode code jsonResponse =>
      "unexpected response code: ".toList ++ (toString code).toList
        ++ ", json: ".toList ++ jsonResponse.toList
  | .zeroDeviceRecords => "received zero device records".toList
  | .noDeviceData mac => "no device data found for device MAC: ".toList ++ mac.toList
  | .webhookTransportErr msg => "error sending webhook request: ".toList ++ msg.toList
  | .webhookFailed status bodyExcerpt =>
      "webhook request failed with status ".toList ++ (toString status).toList
        ++ ": ".toList ++ bodyExcerpt.toList

/-- Does `pat` occur at the start of `s`? -/
def charsStart : List Char → List Char → Bool
  | [], _ => true
  | _ :: _, [] => false
  | p :: ps, c :: cs => p = c && charsStart ps cs

/-- `strings.Contains`: does `pat` occur anywhere in `s`? -/
def charsContain (pat : List Char) : List Char → Bool
  | [] => charsStart pat []
  | c :: cs => charsStart pat (c :: cs) || charsContain pat cs

/-- `isRateLimited` (server.go lines 96–98): the error is non-nil and its
message contains the substring `"429"`.  (The nil check is carried by the
`Option`/`CycleResult` structure at the call sites.) -/
def isRateLimited (err : GoErr) : Bool := charsContain "429".toList err.errorChars

/-! ## The source boundary and `Latest` -/

/-- One entry of `results.DeviceRecord` from the ambient client. -/
structure DeviceRecord where
  Macaddress : String
  LastDataFields : Rec
deriving DecidableEq, Repr

/-- The ambient `Device` response consumed by `Latest`. -/
structure DeviceResults where
  HTTPResponseCode : ℤ
  JSONResponse : String
  DeviceRecord : List DeviceRecord
deriving DecidableEq, Repr

/-- The ambient `DeviceMac` response consumed by `Historical`. -/
structure HistoricalResults where
  HTTPResponseCode : ℤ
  JSONResponse : String
  RecordFields : List Rec
deriving DecidableEq, Repr

/-- A call to the external ambient client either yields a response value or a
transport-level error. -/
inductive SourceResp (α : Type) where
  | ok (results : α)
  | failed (errMsg : String)
deriving DecidableEq, Repr

/-- The field allowlist of `Latest` (weather.go line 48). -/
def fields : List String := ["tempf", "feelsLike", "humidity", "dailyrainin", "dateutc"]

/-- The field-filtering loop of `Latest` (weather.go lines 54–58): copy each
recognized field that exists, preserving allowlist order. -/
def filteredDataOf (r : DeviceRecord) : Rec :=
  fields.filterMap (fun field => (r.LastDataFields.lookup field).map (fun value => (field, value)))

/-- `Latest` (weather.go lines 31–63) over an already-received source
response. -/
def Latest (resp : SourceResp DeviceResults) (mac : String) : Except GoErr Rec :=
  match resp with
  | .failed msg => .error (.sourceErr msg)
  | .ok results =>
    if results.HTTPResponseCode ≠ 200 then
      .error (.unexpectedResponseCode results.HTTPResponseCode results.JSONResponse)
    else if results.DeviceRecord.isEmpty then
      .error .zeroDeviceRecords
    else
      match results.DeviceRecord.find? (fun r => mac == r.Macaddress) with
      | some r => .ok (filteredDataOf r)
      | none => .error (.noDeviceData mac)

/-- `Historical` (weather.go lines 76–199) over an already-received source
response: transport and non-200 failures propagate, otherwise the raw
`RecordFields` are aggregated. -/
def Historical (resp : SourceResp HistoricalResults) : Except GoErr (List Rec) :=
  match resp with
  | .failed msg => .error (.sourceErr msg)
  | .ok results =>
    if results.HTTPResponseCode ≠ 200 then
      .error (.unexpectedResponseCode results.HTTPResponseCode results.JSONResponse)
    else
      .ok (aggregateHistorical results.RecordFields)

/-! ## Payload assembly and webhook delivery -/

structure MergeVariables where
  Latest : Rec
  Historical : List Rec
deriving DecidableEq, Repr

structure WebhookData where
  MergeVariables : MergeVariables
deriving DecidableEq, Repr

/-- `Data` (weather.go lines 202–225).  The mandatory one-second pacing sleep
between the two source calls is real-time behavior with no effect on the
computed value and is not modelled. -/
def Data (latestResp : SourceResp DeviceResults) (histResp : SourceResp HistoricalResults)
    (mac : String) : Except GoErr WebhookData :=
  match Latest latestResp mac with
  | .error err => .error err
  | .ok latest =>
    match Historical histResp with
    | .error err => .error err
    | .ok historical => .ok { MergeVariables := { Latest := latest, Historical := historical } }

/-- Outcome of the `http.Post` call to the webhook. -/
inductive PostOutcome where
  | transportFailed (msg : String)
  | response (statusCode : ℤ) (body : String)
deriving DecidableEq, Repr

/-- `Update` (weather.go lines 227–267) over the boundary outcomes.  The second
component records whether the webhook POST was performed.  JSON encoding of a
`WebhookData` value cannot fail in the model (Go's encoder only fails here on
non-finite floats, which the `ℚ` idealization excludes).  The non-2xx branch
reads at most 1024 bytes of the response body (`io.LimitReader(resp.Body,
1024)`), modelled as the first 1024 characters. -/
def Update (latestResp : SourceResp DeviceResults) (histResp : SourceResp HistoricalResults)
    (mac : String) (post : PostOutcome) : Except GoErr Unit × Bool :=
  match Data latestResp histResp mac with
  | .error err => (.error err, false)
  | .ok _ =>
    match post with
    | .transportFailed msg => (.error (.webhookTransportErr msg), true)
    | .response statusCode body =>
      if statusCode < 200 ∨ 300 ≤ statusCode then
        (.error (.webhookFailed statusCode (String.mk (body.toList.take 1024))), true)
      else
        (.ok (), true)

/-! ## The scheduler loops (server.go)

The `select` loop alternates between ticker fires and OS signals; a run is
driven by the list of events it observes, each tick event carrying the outcome
of the `Update` call made during that iteration.  A run either returns (with
`nil` or an error) or is still looping when the supplied events run out.  The
observable side effects are recorded as an action trace. -/

/-- Outcome of one `Update` cycle. -/
inductive CycleResult where
  | ok
  | failed (err : GoErr)
deriving DecidableEq, Repr

/-- One event observed by the `select` loop. -/
inductive SchedEvent where
  | tick (result : CycleResult)
  | signal (name : String)
deriving DecidableEq, Repr

/-- Observable actions of a scheduler run, in order. -/
inductive SchedAction where
  | runUpdate
  | resetTicker
  | warnRateLimited
  | logUpdateError
  | logShutdown
deriving DecidableEq, Repr

/-- Outcome of a (finite prefix of a) scheduler run. -/
inductive RunOutcome where
  | returned (err : Option GoErr)
  | looping
deriving DecidableEq, Repr

/-- The `for`/`select` loop of `ServeCmd.Run` (server.go lines 29–39): a failed
tick `Update` only logs; a signal returns `nil`. -/
def serveCmdLoop : List SchedEvent → List SchedAction × RunOutcome
  | [] => ([], .looping)
  | .tick .ok :: evs =>
    let r := serveCmdLoop evs
    (.runUpdate :: r.1, r.2)
  | .tick (.failed _) :: evs =>
    let r := serveCmdLoop evs
    (.runUpdate :: .logUpdateError :: r.1, r.2)
  | .signal _ :: _ => ([.logShutdown], .returned none)

/-- `ServeCmd.Run` (server.go lines 14–40): the initial `Update` runs before
the loop and any failure is returned immediately. -/
def serveCmdRun (initialResult : CycleResult) (evs : List SchedEvent) :
    List SchedAction × RunOutcome :=
  match initialResult with
  | .ok =>
    let r := serveCmdLoop evs
    (.runUpdate :: r.1, r.2)
  | .failed err => ([.runUpdate], .returned (some err))

/-- The `for`/`select` loop of `ServerCmd.Run` (server.go lines 75–92): a
rate-limited tick failure resets the ticker and logs a warning; any other tick
failure logs an error; a signal returns `nil`. -/
def serverCmdLoop : List SchedEvent → List SchedAction × RunOutcome
  | [] => ([], .looping)
  | .tick .ok :: evs =>
    let r := serverCmdLoop evs
    (.runUpdate :: r.1, r.2)
  | .tick (.failed err) :: evs =>
    let r := serverCmdLoop evs
    if isRateLimited err then
      (.runUpdate :: .resetTicker :: .warnRateLimited :: r.1, r.2)
    else
      (.runUpdate :: .logUpdateError :: r.1, r.2)
  | .signal _ :: _ => ([.logShutdown], .returned none)

/-- `ServerCmd.Run` (server.go lines 55–93): the initial `Update` runs before
the loop; a rate-limited initial failure only logs a warning, any other initial
failure is returned immediately. -/
def serverCmdRun (initialResult : CycleResult) (evs : List SchedEvent) :
    List SchedAction × RunOutcome :=
  match initialResult with
  | .ok =>
    let r := serverCmdLoop evs
    (.runUpdate :: r.1, r.2)
  | .failed err =>
    if isRateLimited err then
      let r := serverCmdLoop evs
      (.runUpdate :: .warnRateLimited :: r.1, r.2)
    else
      ([.runUpdate], .returned (some err))

/-- Is one of the observed events an OS signal? -/
def hasSignal (evs : List SchedEvent) : Bool :=
  evs.any (fun e => match e with | .signal _ => true | _ => false)

/-! ## Spec-side and analysis definitions -/

/-- The effect of one sample on the bucket of key `k`. -/
def bucketStep (k : ℤ) (ob : Option hourlyBucket) (p : ℤ × ℚ) : Option hourlyBucket :=
  if hourKey p.1 = k then
    some ((ob.elim { Sum := p.2, Count := 1, First := hourStartMs p.1 })
      (fun b => { Sum := b.Sum + p.2, Count := b.Count + 1, First := b.First }))
  else ob

/-- The bucket of key `k` produced by a sample list. -/
def bucketOfSamples (k : ℤ) (ps : List (ℤ × ℚ)) : Option hourlyBucket :=
  ps.foldl (bucketStep k) none

/-- The bucket-map fold over already-parsed samples. -/
def foldSamples (ps : List (ℤ × ℚ)) (acc : List (ℤ × hourlyBucket)) : List (ℤ × hourlyBucket) :=
  ps.foldl (fun bs p => updateBuckets (hourKey p.1) p.1 p.2 bs) acc

/-- Every sample timestamp parsed from the series is non-negative: the realistic
(post-1970) domain, on which Go's truncating divisions agree with mathematical
floor. -/
def allNonneg (rs : List Rec) : Prop := ∀ p ∈ validSamples rs, 0 ≤ p.1

/-- Rounding to 1 decimal place, half away from zero: the spec's description of
the emitted average, to be compared with the code's `math.Round(x*10)/10`. -/
def roundHalf1 (x : ℚ) : ℚ :=
  (if 0 ≤ x then ((Rat.floor (x * 10 + 1 / 2) : ℤ) : ℚ)
   else -((Rat.floor (-(x * 10) + 1 / 2) : ℤ) : ℚ)) / 10

/-- The arithmetic mean of the temperatures of a sample list. -/
def meanTemp (ps : List (ℤ × ℚ)) : ℚ := (ps.map Prod.snd).sum / (ps.length : ℚ)

/-- The two error sites of `Latest` that the spec's taxonomy classifies as
`NotFound` (weather.go lines 44 and 62). -/
def isNotFoundErr : GoErr → Bool
  | .zeroDeviceRecords => true
  | .noDeviceData _ => true
  | _ => false

/-! ## Concrete inputs used by witnesses and counterexamples -/

/-- The spec's own worked example: two same-hour samples, 70°F and 72°F. -/
def c1rs : List Rec :=
  [[("tempf", GoVal.vFloat64 70), ("dateutc", GoVal.vInt64 1700000000000)],
   [("tempf", GoVal.vFloat64 72), ("dateutc", GoVal.vInt64 1700000001000)]]

/-- Two samples in the same UTC hour (1969-12-31 23:00), pre-epoch. -/
def c1neg : List Rec :=
  [[("tempf", GoVal.vFloat64 1), ("dateutc", GoVal.vInt64 (-500))],
   [("tempf", GoVal.vFloat64 3), ("dateutc", GoVal.vInt64 (-3600000))]]

/-- Two samples in two adjacent UTC hours, post-epoch. -/
def c2rs : List Rec :=
  [[("tempf", GoVal.vFloat64 50), ("dateutc", GoVal.vInt64 1700003600000)],
   [("tempf", GoVal.vFloat64 70), ("dateutc", GoVal.vInt64 1700000000000)]]

/-- Two pre-epoch samples in UTC hour -1 that the code keys into two distinct
buckets, both emitted with `dateutc = 0`. -/
def c2neg : List Rec :=
  [[("tempf", GoVal.vFloat64 1), ("dateutc", GoVal.vInt64 (-500))],
   [("tempf", GoVal.vFloat64 3), ("dateutc", GoVal.vInt64 (-1500))]]

/-- Two samples whose buckets share the emitted timestamp `0` but differ in
temperature, in one order. -/
def c3a : List Rec :=
  [[("tempf", GoVal.vFloat64 1), ("dateutc", GoVal.vInt64 500)],
   [("tempf", GoVal.vFloat64 3), ("dateutc", GoVal.vInt64 (-1000))]]

/-- The same two samples in the opposite order. -/
def c3b : List Rec :=
  [[("tempf", GoVal.vFloat64 3), ("dateutc", GoVal.vInt64 (-1000))],
   [("tempf", GoVal.vFloat64 1), ("dateutc", GoVal.vInt64 500)]]

/-- A single sample half an hour before the epoch. -/
def c4rs : List Rec := [[("tempf", GoVal.vFloat64 70), ("dateutc", GoVal.vInt64 (-1800000))]]

/-- Two same-bucket pre-epoch samples, hour-aligned sample first. -/
def c4ab : List Rec :=
  [[("tempf", GoVal.vFloat64 70), ("dateutc", GoVal.vInt64 (-3600000))],
   [("tempf", GoVal.vFloat64 72), ("dateutc", GoVal.vInt64 (-1800000))]]

/-- The same two samples in the opposite order. -/
def c4ba : List Rec :=
  [[("tempf", GoVal.vFloat64 72), ("dateutc", GoVal.vInt64 (-1800000))],
   [("tempf", GoVal.vFloat64 70), ("dateutc", GoVal.vInt64 (-3600000))]]

/-- A malformed record: the temperature does not parse. -/
def c5bad : Rec := [("tempf", GoVal.vString "abc"), ("dateutc", GoVal.vInt64 0)]

/-- A well-formed record. -/
def c5good : Rec := [("tempf", GoVal.vFloat64 70), ("dateutc", GoVal.vInt64 0)]

/-- A device-list response with one matching device carrying no fields. -/
def c9latest : SourceResp DeviceResults :=
  SourceResp.ok (DeviceResults.mk 200 "" [DeviceRecord.mk "AA" []])

/-- An empty, successful historical response. -/
def c9hist : SourceResp HistoricalResults :=
  SourceResp.ok (HistoricalResults.mk 200 "" [])

/-- One well-formed record, one hour after the epoch. -/
def c10rs : List Rec := [[("tempf", GoVal.vFloat64 70), ("dateutc", GoVal.vInt64 3600000)]]

/-! ## Helper lemmas: Go division on non-negative operands -/

theorem tdiv_ofNat (m n : ℕ) : Int.tdiv (Int.ofNat m) (Int.ofNat n) = Int.ofNat (m / n) := rfl

theorem fdiv_ofNat (m n : ℕ) : Int.fdiv (Int.ofNat m) (Int.ofNat n) = Int.ofNat (m / n) := by
  cases m with
  | zero => simp [Int.fdiv]
  | succ m' => rfl

/-- On non-negative timestamps the bucket key is the floor hour number. -/
theorem hourKey_of_nonneg {ts : ℤ} (h : 0 ≤ ts) : hourKey ts = Int.fdiv ts 3600000 := by
  obtain ⟨n, rfl⟩ := Int.eq_ofNat_of_zero_le h
  show Int.fdiv (Int.tdiv (Int.ofNat n) (Int.ofNat 1000)) (Int.ofNat 3600) =
    Int.fdiv (Int.ofNat n) (Int.ofNat 3600000)
  rw [tdiv_ofNat, fdiv_ofNat, fdiv_ofNat, Nat.div_div_eq_div_mul]

/-- On non-negative timestamps `hourStartMs` is the floor-to-the-hour. -/
theorem hourStartMs_of_nonneg {ts : ℤ} (h : 0 ≤ ts) :
    hourStartMs ts = Int.fdiv ts 3600000 * 3600000 := by
  obtain ⟨n, rfl⟩ := Int.eq_ofNat_of_zero_le h
  show Int.tdiv (Int.ofNat n) (Int.ofNat 3600000) * 3600000 =
    Int.fdiv (Int.ofNat n) (Int.ofNat 3600000) * 3600000
  rw [tdiv_ofNat, fdiv_ofNat]

theorem hourStartMs_eq_hourKey_mul_of_nonneg {ts : ℤ} (h : 0 ≤ ts) :
    hourStartMs ts = hourKey ts * 3600000 := by
  rw [hourKey_of_nonneg h, hourStartMs_of_nonneg h]

/-! ## Helper lemmas: the bucket map as a per-key fold -/

theorem hourlyBucketsOf_eq_foldSamples (rs : List Rec) :
    hourlyBucketsOf rs = foldSamples (validSamples rs) [] := by
  suffices h : ∀ (rs : List Rec) (acc : List (ℤ × hourlyBucket)),
      rs.foldl (fun buckets record =>
        match parseSample record with
        | none => buckets
        | some s => updateBuckets (hourKey s.1) s.1 s.2 buckets) acc =
        foldSamples (validSamples rs) acc by
    exact h rs []
  intro rs
  induction rs with
  | nil => intro acc; rfl
  | cons r rs ih =>
    intro acc
    cases h : parseSample r with
    | none => simp [List.foldl_cons, h, ih, validSamples, List.filterMap_cons]
    | some s => simp [List.foldl_cons, h, ih, validSamples, List.filterMap_cons, foldSamples]

theorem lookup_cons_ite (k k' : ℤ) (b : hourlyBucket) (rest : List (ℤ × hourlyBucket)) :
    List.lookup k ((k', b) :: rest) = if k = k' then some b else List.lookup k rest := by
  by_cases h : k = k'
  · simp [h]
  · have hb : (k == k') = false := beq_eq_false_iff_ne.mpr h
    rw [List.lookup_cons, hb, if_neg h]

theorem lookup_updateBuckets (hkey timestampMs : ℤ) (tempf : ℚ)
    (bs : List (ℤ × hourlyBucket)) (k : ℤ) :
    (updateBuckets hkey timestampMs tempf bs).lookup k =
      if hkey = k then
        some ((bs.lookup hkey).elim { Sum := tempf, Count := 1, First := hourStartMs timestampMs }
          (fun b => { Sum := b.Sum + tempf, Count := b.Count + 1, First := b.First }))
      else bs.lookup k := by
  induction bs with
  | nil =>
    by_cases h : hkey = k <;>
      simp [updateBuckets, lookup_cons_ite, h, eq_comm]
  | cons kb rest ih =>
    obtain ⟨k', b⟩ := kb
    by_cases h1 : k' = hkey
    · subst h1
      rw [updateBuckets, if_pos rfl]
      by_cases h2 : k' = k
      · subst h2
        simp [lookup_cons_ite]
      · rw [lookup_cons_ite, if_neg (fun h => h2 h.symm), if_neg h2,
          lookup_cons_ite, if_neg (fun h => h2 h.symm)]
    · rw [updateBuckets, if_neg h1]
      by_cases h2 : hkey = k
      · subst h2
        rw [lookup_cons_ite, if_neg (fun h => h1 h.symm), ih, if_pos rfl, if_pos rfl,
          lookup_cons_ite, if_neg (fun h => h1 h.symm)]
      · by_cases h3 : k = k'
        · subst h3
          rw [lookup_cons_ite, if_pos rfl, if_neg h2, lookup_cons_ite, if_pos rfl]
        · rw [lookup_cons_ite, if_neg h3, ih, if_neg h2, if_neg h2, lookup_cons_ite, if_neg h3]

theorem lookup_foldSamples (k : ℤ) :
    ∀ (ps : List (ℤ × ℚ)) (acc : List (ℤ × hourlyBucket)),
      (foldSamples ps acc).lookup k = ps.foldl (bucketStep k) (acc.lookup k)
  | [], _ => rfl
  | p :: ps, acc => by
    rw [foldSamples, List.foldl_cons, ← foldSamples, lookup_foldSamples k ps,
      lookup_updateBuckets, List.foldl_cons, bucketStep]
    by_cases h : hourKey p.1 = k <;> simp [h]

theorem lookup_hourlyBucketsOf (rs : List Rec) (k : ℤ) :
    (hourlyBucketsOf rs).lookup k = bucketOfSamples k (validSamples rs) := by
  rw [hourlyBucketsOf_eq_foldSamples, lookup_foldSamples, List.lookup_nil, bucketOfSamples]

theorem bucketFold_some (k : ℤ) :
    ∀ (ps : List (ℤ × ℚ)) (b : hourlyBucket),
      ps.foldl (bucketStep k) (some b) =
        some { Sum := b.Sum + ((ps.filter (fun p => hourKey p.1 == k)).map Prod.snd).sum,
               Count := b.Count + (ps.filter (fun p => hourKey p.1 == k)).length,
               First := b.First }
  | [], b => by simp
  | p :: ps, b => by
    by_cases h : hourKey p.1 = k
    · rw [List.foldl_cons, bucketStep, if_pos h, Option.elim_some, bucketFold_some k ps,
        List.filter_cons_of_pos (by simpa using h)]
      simp [add_assoc, add_comm 1]
    · rw [List.foldl_cons, bucketStep, if_neg h, bucketFold_some k ps,
        List.filter_cons_of_neg (by simpa using h)]

theorem bucketOfSamples_eq (k : ℤ) :
    ∀ ps : List (ℤ × ℚ),
      bucketOfSamples k ps =
        match ps.filter (fun p => hourKey p.1 == k) with
        | [] => none
        | q :: qs => some { Sum := q.2 + (qs.map Prod.snd).sum,
                            Count := 1 + qs.length,
                            First := hourStartMs q.1 }
  | [] => rfl
  | p :: ps => by
    by_cases h : hourKey p.1 = k
    · rw [bucketOfSamples, List.foldl_cons, bucketStep, if_pos h, Option.elim_none,
        bucketFold_some k ps, List.filter_cons_of_pos (by simpa using h)]
    · rw [bucketOfSamples, List.foldl_cons, bucketStep, if_neg h, ← bucketOfSamples,
        bucketOfSamples_eq k ps, List.filter_cons_of_neg (by simpa using h)]

theorem keys_updateBuckets (hkey timestampMs : ℤ) (tempf : ℚ) :
    ∀ bs : List (ℤ × hourlyBucket),
      (updateBuckets hkey timestampMs tempf bs).map Prod.fst =
        if hkey ∈ bs.map Prod.fst then bs.map Prod.fst else bs.map Prod.fst ++ [hkey]
  | [] => by simp [updateBuckets]
  | (k', b) :: rest => by
    by_cases h : k' = hkey
    · subst h
      simp [updateBuckets]
    · rw [updateBuckets, if_neg h, List.map_cons, keys_updateBuckets hkey timestampMs tempf rest]
      by_cases hm : hkey ∈ rest.map Prod.fst <;>
        simp [hm, List.mem_cons, Ne.symm h]

theorem keys_nodup_updateBuckets (hkey timestampMs : ℤ) (tempf : ℚ)
    (bs : List (ℤ × hourlyBucket)) (h : (bs.map Prod.fst).Nodup) :
    ((updateBuckets hkey timestampMs tempf bs).map Prod.fst).Nodup := by
  rw [keys_updateBuckets]
  by_cases hm : hkey ∈ bs.map Prod.fst
  · simpa [hm] using h
  · simp [hm, List.nodup_append, h]

theorem keys_nodup_hourlyBucketsOf (rs : List Rec) :
    ((hourlyBucketsOf rs).map Prod.fst).Nodup := by
  rw [hourlyBucketsOf_eq_foldSamples]
  suffices h : ∀ (ps : List (ℤ × ℚ)) (acc : List (ℤ × hourlyBucket)),
      (acc.map Prod.fst).Nodup → ((foldSamples ps acc).map Prod.fst).Nodup by
    exact h _ [] (by simp)
  intro ps
  induction ps with
  | nil => intro acc hacc; exact hacc
  | cons p ps ih =>
    intro acc hacc
    exact ih _ (keys_nodup_updateBuckets _ _ _ _ hacc)

theorem count_pos_hourlyBucketsOf (rs : List Rec) :
    ∀ kb ∈ hourlyBucketsOf rs, 0 < kb.2.Count := by
  rw [hourlyBucketsOf_eq_foldSamples]
  suffices h : ∀ (ps : List (ℤ × ℚ)) (acc : List (ℤ × hourlyBucket)),
      (∀ kb ∈ acc, 0 < kb.2.Count) → ∀ kb ∈ foldSamples ps acc, 0 < kb.2.Count by
    exact h _ [] (by simp)
  have hupd : ∀ (hkey ts : ℤ) (t : ℚ) (bs : List (ℤ × hourlyBucket)),
      (∀ kb ∈ bs, 0 < kb.2.Count) → ∀ kb ∈ updateBuckets hkey ts t bs, 0 < kb.2.Count := by
    intro hkey ts t bs
    induction bs with
    | nil => intro _ kb hkb; simp [updateBuckets] at hkb; simp [hkb]
    | cons kb' rest ih =>
      obtain ⟨k', b⟩ := kb'
      intro hall kb hkb
      rw [updateBuckets] at hkb
      by_cases h : k' = hkey
      · rw [if_pos h] at hkb
        rcases List.mem_cons.mp hkb with h1 | h1
        · subst h1; simp
        · exact hall _ (List.mem_cons_of_mem _ h1)
      · rw [if_neg h] at hkb
        rcases List.mem_cons.mp hkb with h1 | h1
        · subst h1; exact hall _ (List.mem_cons_self _ _)
        · exact ih (fun x hx => hall _ (List.mem_cons_of_mem _ hx)) _ h1
  intro ps
  induction ps with
  | nil => intro acc hacc; exact hacc
  | cons p ps ih =>
    intro acc hacc
    exact ih _ (hupd _ _ _ _ hacc)

/-! ## Helper lemmas: association lists with distinct keys -/

theorem mem_of_lookup {bs : List (ℤ × hourlyBucket)} {k : ℤ} {b : hourlyBucket}
    (h : bs.lookup k = some b) : (k, b) ∈ bs := by
  obtain ⟨l1, l2, rfl, -⟩ := List.lookup_eq_some_iff.mp h
  simp

theorem lookup_eq_none_of_not_mem_keys {bs : List (ℤ × hourlyBucket)} {k : ℤ}
    (h : k ∉ bs.map Prod.fst) : bs.lookup k = none := by
  rw [List.lookup_eq_none_iff]
  intro p hp
  have hmem : p.1 ∈ bs.map Prod.fst := List.mem_map_of_mem _ hp
  have hne : k ≠ p.1 := fun hk => h (hk ▸ hmem)
  simpa using hne

theorem lookup_eq_of_mem_nodup :
    ∀ {bs : List (ℤ × hourlyBucket)} {k : ℤ} {b : hourlyBucket},
      (bs.map Prod.fst).Nodup → (k, b) ∈ bs → bs.lookup k = some b
  | [], _, _, _, hm => absurd hm (by simp)
  | (k', b') :: rest, k, b, hnd, hm => by
    rcases List.mem_cons.mp hm with h | h
    · rw [Prod.mk.injEq] at h
      rw [← h.1, ← h.2, List.lookup_cons_self]
    · have hnd' : (∀ x : hourlyBucket, (k', x) ∉ rest) ∧ (rest.map Prod.fst).Nodup := by
        simpa using hnd
      have hk : k ≠ k' := fun hkk => hnd'.1 b (hkk ▸ h)
      rw [lookup_cons_ite, if_neg hk]
      exact lookup_eq_of_mem_nodup hnd'.2 h

theorem assoc_perm_of_lookup_eq :
    ∀ (bs1 bs2 : List (ℤ × hourlyBucket)),
      (bs1.map Prod.fst).Nodup → (bs2.map Prod.fst).Nodup →
      (∀ k, bs1.lookup k = bs2.lookup k) → List.Perm bs1 bs2
  | [], bs2, _, _, h => by
    cases bs2 with
    | nil => exact List.Perm.refl _
    | cons kb rest =>
      obtain ⟨k, b⟩ := kb
      have hk := h k
      rw [List.lookup_nil, List.lookup_cons_self] at hk
      exact absurd hk (by simp)
  | (k, b) :: t1, bs2, hnd1, hnd2, h => by
    have hb2 : bs2.lookup k = some b := by rw [← h k, List.lookup_cons_self]
    obtain ⟨l1, l2, rfl⟩ := List.append_of_mem (mem_of_lookup hb2)
    have hkeys2 : (l1 ++ (k, b) :: l2).map Prod.fst =
        l1.map Prod.fst ++ k :: l2.map Prod.fst := by simp
    rw [hkeys2] at hnd2
    have hnd2' := List.nodup_append.mp hnd2
    have hkl1 : k ∉ l1.map Prod.fst := fun hm => (hnd2'.2.2 hm) (List.mem_cons_self _ _)
    have hkl2 : k ∉ l2.map Prod.fst := (List.nodup_cons.mp hnd2'.2.1).1
    have hndt1 : (t1.map Prod.fst).Nodup := (List.nodup_cons.mp (by simpa using hnd1)).2
    have hkt1 : k ∉ t1.map Prod.fst := (List.nodup_cons.mp (by simpa using hnd1)).1
    have hnd12 : ((l1 ++ l2).map Prod.fst).Nodup := by
      rw [List.map_append, List.nodup_append]
      exact ⟨hnd2'.1, (List.nodup_cons.mp hnd2'.2.1).2,
        fun a ha hb => hnd2'.2.2 ha (List.mem_cons_of_mem _ hb)⟩
    have hlk : ∀ k', t1.lookup k' = (l1 ++ l2).lookup k' := by
      intro k'
      by_cases hkk : k' = k
      · have hnm : ¬ k ∈ (l1 ++ l2).map Prod.fst := by
          rw [List.map_append, List.mem_append]
          rintro (hm | hm)
          · exact hkl1 hm
          · exact hkl2 hm
        rw [hkk, lookup_eq_none_of_not_mem_keys hkt1, lookup_eq_none_of_not_mem_keys hnm]
      · have hk' := h k'
        rw [lookup_cons_ite, if_neg hkk] at hk'
        rw [hk', List.lookup_append, List.lookup_append, lookup_cons_ite, if_neg hkk]
    have hrec := assoc_perm_of_lookup_eq t1 (l1 ++ l2) hndt1 hnd12 hlk
    exact List.Perm.trans (List.Perm.cons _ hrec) List.perm_middle.symm

theorem sorted_key_perm_eq :
    ∀ (l1 l2 : List Rec), List.Perm l1 l2 → List.Sorted recLe l1 → List.Sorted recLe l2 →
      (l1.map dateutcKey).Nodup → l1 = l2
  | [], l2, hp, _, _, _ => hp.nil_eq
  | a :: t1, l2, hp, hs1, hs2, hnd => by
    cases l2 with
    | nil => exact absurd hp.symm.nil_eq (by simp)
    | cons b t2 =>
      by_cases hab : b = a
      · subst hab
        have hrec := sorted_key_perm_eq t1 t2 hp.cons_inv (List.sorted_cons.mp hs1).2
          (List.sorted_cons.mp hs2).2 (List.nodup_cons.mp (by simpa using hnd)).2
        rw [hrec]
      · have hbt1 : b ∈ t1 := by
          rcases List.mem_cons.mp (hp.mem_iff.mpr (List.mem_cons_self b t2)) with h | h
          · exact absurd h hab
          · exact h
        have hat2 : a ∈ t2 := by
          rcases List.mem_cons.mp (hp.mem_iff.mp (List.mem_cons_self a t1)) with h | h
          · exact absurd h.symm hab
          · exact h
        have h1 : dateutcKey a ≤ dateutcKey b := (List.sorted_cons.mp hs1).1 b hbt1
        have h2 : dateutcKey b ≤ dateutcKey a := (List.sorted_cons.mp hs2).1 a hat2
        have hmem : dateutcKey b ∈ t1.map dateutcKey := List.mem_map_of_mem _ hbt1
        rw [le_antisymm h2 h1] at hmem
        exact absurd hmem (List.nodup_cons.mp (by simpa using hnd)).1

/-! ## Helper lemmas: buckets under the non-negative-timestamp domain -/

theorem bucket_facts_of_mem {rs : List Rec} (hpos : allNonneg rs)
    {kb : ℤ × hourlyBucket} (hmem : kb ∈ hourlyBucketsOf rs) :
    kb.2.First = kb.1 * 3600000 ∧ ∃ p ∈ validSamples rs, hourKey p.1 = kb.1 := by
  obtain ⟨k, b⟩ := kb
  have hl : (hourlyBucketsOf rs).lookup k = some b :=
    lookup_eq_of_mem_nodup (keys_nodup_hourlyBucketsOf rs) hmem
  rw [lookup_hourlyBucketsOf, bucketOfSamples_eq] at hl
  cases hf : (validSamples rs).filter (fun p => hourKey p.1 == k) with
  | nil => rw [hf] at hl; exact absurd hl (by simp)
  | cons q qs =>
    rw [hf] at hl
    have hq : q ∈ (validSamples rs).filter (fun p => hourKey p.1 == k) := by
      rw [hf]; exact List.mem_cons_self _ _
    have hqv : q ∈ validSamples rs := List.mem_of_mem_filter hq
    have hqk : hourKey q.1 = k := by simpa using List.of_mem_filter hq
    have hb := Option.some.inj hl
    refine ⟨?_, q, hqv, hqk⟩
    show b.First = k * 3600000
    rw [← hb]
    show hourStartMs q.1 = k * 3600000
    rw [hourStartMs_eq_hourKey_mul_of_nonneg (hpos q hqv), hqk]

/-! ## Helper lemmas: emission and the sorted output -/

theorem emitBuckets_eq_map {bs : List (ℤ × hourlyBucket)} (h : ∀ kb ∈ bs, 0 < kb.2.Count) :
    emitBuckets bs = bs.map (fun kb => bucketRecord kb.2) := by
  induction bs with
  | nil => rfl
  | cons kb rest ih =>
    rw [emitBuckets, List.filterMap_cons, if_pos (h kb (List.mem_cons_self _ _)),
      List.map_cons, ← emitBuckets, ih (fun x hx => h x (List.mem_cons_of_mem _ hx))]

theorem dateutcKey_bucketRecord (b : hourlyBucket) : dateutcKey (bucketRecord b) = b.First := by
  rfl

theorem map_dateutcKey_emit_eq (rs : List Rec) :
    (emitBuckets (hourlyBucketsOf rs)).map dateutcKey =
      (hourlyBucketsOf rs).map (fun kb => kb.2.First) := by
  rw [emitBuckets_eq_map (count_pos_hourlyBucketsOf rs), List.map_map]
  exact List.map_congr_left (fun kb _ => dateutcKey_bucketRecord kb.2)

theorem map_first_eq_keys_mul {rs : List Rec} (hpos : allNonneg rs) :
    (hourlyBucketsOf rs).map (fun kb => kb.2.First) =
      (hourlyBucketsOf rs).map (fun kb => kb.1 * 3600000) :=
  List.map_congr_left (fun kb hkb => (bucket_facts_of_mem hpos hkb).1)

theorem nodup_map_dateutcKey_emit {rs : List Rec} (hpos : allNonneg rs) :
    ((emitBuckets (hourlyBucketsOf rs)).map dateutcKey).Nodup := by
  rw [map_dateutcKey_emit_eq, map_first_eq_keys_mul hpos]
  have hmm : (hourlyBucketsOf rs).map (fun kb => kb.1 * 3600000) =
      ((hourlyBucketsOf rs).map Prod.fst).map (fun k => k * 3600000) := by
    rw [List.map_map]; rfl
  rw [hmm]
  refine List.Nodup.map (fun a b hab => ?_) (keys_nodup_hourlyBucketsOf rs)
  omega

theorem validSamples_perm {rs rs' : List Rec} (h : List.Perm rs' rs) :
    List.Perm (validSamples rs') (validSamples rs) := h.filterMap parseSample

theorem bucketOfSamples_perm_eq {ps ps' : List (ℤ × ℚ)} (hperm : List.Perm ps' ps)
    (hpos : ∀ p ∈ ps, 0 ≤ p.1) (k : ℤ) :
    bucketOfSamples k ps' = bucketOfSamples k ps := by
  rw [bucketOfSamples_eq, bucketOfSamples_eq]
  have hfp : List.Perm (ps'.filter (fun p => hourKey p.1 == k))
      (ps.filter (fun p => hourKey p.1 == k)) := hperm.filter _
  cases hf' : ps'.filter (fun p => hourKey p.1 == k) with
  | nil =>
    rw [hf'] at hfp
    rw [hfp.nil_eq]
  | cons q' qs' =>
    rw [hf'] at hfp
    cases hf : ps.filter (fun p => hourKey p.1 == k) with
    | nil => rw [hf] at hfp; exact absurd hfp.symm.nil_eq (by simp)
    | cons q qs =>
      rw [hf] at hfp
      have hsum : q'.2 + (qs'.map Prod.snd).sum = q.2 + (qs.map Prod.snd).sum := by
        have := (hfp.map Prod.snd).sum_eq
        simpa using this
      have hlen : qs'.length = qs.length := by
        have := hfp.length_eq
        simpa using this
      have hq'k : hourKey q'.1 = k := by
        have hq'f : q' ∈ ps'.filter (fun p => hourKey p.1 == k) := by
          rw [hf']; exact List.mem_cons_self _ _
        simpa using List.of_mem_filter hq'f
      have hqk : hourKey q.1 = k := by
        have hqf : q ∈ ps.filter (fun p => hourKey p.1 == k) := by
          rw [hf]; exact List.mem_cons_self _ _
        simpa using List.of_mem_filter hqf
      have hq'mem : q' ∈ ps := by
        have hq'm : q' ∈ ps' :=
          List.mem_of_mem_filter (by rw [hf']; exact List.mem_cons_self _ _)
        exact hperm.mem_iff.mp hq'm
      have hqmem : q ∈ ps := List.mem_of_mem_filter (by rw [hf]; exact List.mem_cons_self _ _)
      have hfirst : hourStartMs q'.1 = hourStartMs q.1 := by
        rw [hourStartMs_eq_hourKey_mul_of_nonneg (hpos q' hq'mem), hq'k,
          hourStartMs_eq_hourKey_mul_of_nonneg (hpos q hqmem), hqk]
      show some (hourlyBucket.mk (q'.2 + (qs'.map Prod.snd).sum) (1 + qs'.length) (hourStartMs q'.1))
          = some (hourlyBucket.mk (q.2 + (qs.map Prod.snd).sum) (1 + qs.length) (hourStartMs q.1))
      rw [hsum, hlen, hfirst]

theorem hourlyBucketsOf_perm {rs rs' : List Rec} (hperm : List.Perm rs' rs)
    (hpos : allNonneg rs) :
    List.Perm (hourlyBucketsOf rs') (hourlyBucketsOf rs) := by
  refine assoc_perm_of_lookup_eq _ _ (keys_nodup_hourlyBucketsOf rs')
    (keys_nodup_hourlyBucketsOf rs) (fun k => ?_)
  rw [lookup_hourlyBucketsOf, lookup_hourlyBucketsOf]
  exact bucketOfSamples_perm_eq (validSamples_perm hperm) hpos k

theorem sorted_aggregateHistorical (rs : List Rec) :
    List.Sorted recLe (aggregateHistorical rs) :=
  List.sorted_insertionSort recLe _

theorem aggregateHistorical_perm_emit (rs : List Rec) :
    List.Perm (aggregateHistorical rs) (emitBuckets (hourlyBucketsOf rs)) :=
  List.perm_insertionSort recLe _

theorem allNonneg_of_perm {rs rs' : List Rec} (hperm : List.Perm rs' rs)
    (hpos : allNonneg rs) : allNonneg rs' :=
  fun p hp => hpos p ((validSamples_perm hperm).mem_iff.mp hp)

theorem nodup_map_dateutcKey_aggregate {rs : List Rec} (hpos : allNonneg rs) :
    ((aggregateHistorical rs).map dateutcKey).Nodup :=
  (((aggregateHistorical_perm_emit rs).map dateutcKey).nodup_iff).mpr
    (nodup_map_dateutcKey_emit hpos)

theorem aggregateHistorical_perm_invariant {rs rs' : List Rec}
    (hperm : List.Perm rs' rs) (hpos : allNonneg rs) :
    aggregateHistorical rs' = aggregateHistorical rs := by
  have hb : List.Perm (hourlyBucketsOf rs') (hourlyBucketsOf rs) :=
    hourlyBucketsOf_perm hperm hpos
  have hemit : List.Perm (emitBuckets (hourlyBucketsOf rs'))
      (emitBuckets (hourlyBucketsOf rs)) := by
    rw [emitBuckets_eq_map (count_pos_hourlyBucketsOf rs'),
      emitBuckets_eq_map (count_pos_hourlyBucketsOf rs)]
    exact hb.map _
  have hagg : List.Perm (aggregateHistorical rs') (aggregateHistorical rs) :=
    ((aggregateHistorical_perm_emit rs').trans hemit).trans
      (aggregateHistorical_perm_emit rs).symm
  exact sorted_key_perm_eq _ _ hagg (sorted_aggregateHistorical rs')
    (sorted_aggregateHistorical rs)
    (nodup_map_dateutcKey_aggregate (allNonneg_of_perm hperm hpos))

theorem hourlyBucketsOf_single {rs : List Rec} {h : ℤ}
    (hne : validSamples rs ≠ [])
    (hkey : ∀ p ∈ validSamples rs, hourKey p.1 = h) :
    ∃ q qs, validSamples rs = q :: qs ∧
      hourlyBucketsOf rs =
        [(h, hourlyBucket.mk (q.2 + (qs.map Prod.snd).sum) (1 + qs.length)
          (hourStartMs q.1))] := by
  cases hv : validSamples rs with
  | nil => exact absurd hv hne
  | cons q qs =>
    refine ⟨q, qs, rfl, ?_⟩
    have hfilter : (validSamples rs).filter (fun p => hourKey p.1 == h) = validSamples rs :=
      List.filter_eq_self.mpr (fun p hp => by simpa using hkey p hp)
    have hlook : (hourlyBucketsOf rs).lookup h =
        some (hourlyBucket.mk (q.2 + (qs.map Prod.snd).sum) (1 + qs.length)
          (hourStartMs q.1)) := by
      rw [lookup_hourlyBucketsOf, bucketOfSamples_eq, hfilter, hv]
    have hkeys : ∀ k ∈ (hourlyBucketsOf rs).map Prod.fst, k = h := by
      intro k hk
      by_contra hkk
      have hnone : (hourlyBucketsOf rs).lookup k = none := by
        rw [lookup_hourlyBucketsOf, bucketOfSamples_eq,
          List.filter_eq_nil_iff.mpr (fun p hp => by simp [hkey p hp, Ne.symm hkk])]
      have hsome : ((hourlyBucketsOf rs).lookup k).isSome := by
        rw [List.lookup_isSome_iff]
        obtain ⟨kb, hkb, hfst⟩ := List.mem_map.mp hk
        exact ⟨kb, hkb, by simp [hfst]⟩
      rw [hnone] at hsome
      exact absurd hsome (by simp)
    cases hbs : hourlyBucketsOf rs with
    | nil => rw [hbs] at hlook; exact absurd hlook (by simp)
    | cons kb1 t =>
      obtain ⟨k1, b1⟩ := kb1
      have hk1 : k1 = h := hkeys k1 (by rw [hbs]; simp)
      have ht : t = [] := by
        cases ht : t with
        | nil => rfl
        | cons kb2 t2 =>
          obtain ⟨k2, b2⟩ := kb2
          have hk2 : k2 = h := hkeys k2 (by rw [hbs, ht]; simp)
          have hnd := keys_nodup_hourlyBucketsOf rs
          rw [hbs, ht] at hnd
          simp [hk1, hk2] at hnd
      subst ht
      rw [hbs, hk1] at hlook
      rw [List.lookup_cons_self] at hlook
      rw [hk1, Option.some.inj hlook]

/-! ## Spec-side definitions for the rounding and averaging claims -/

theorem avgTempOf_eq_roundHalf1 (b : hourlyBucket) :
    avgTempOf b = roundHalf1 (b.Sum / (b.Count : ℚ)) := by
  unfold avgTempOf roundHalf1 mathRound
  have hiff : (0 ≤ b.Sum / (b.Count : ℚ) * 10) ↔ (0 ≤ b.Sum / (b.Count : ℚ)) := by
    constructor
    · intro h; linarith
    · intro h; linarith
  rw [if_congr hiff rfl rfl]

theorem ratFloor_eq_intFloor (q : ℚ) : Rat.floor q = ⌊q⌋ :=
  (Rat.floor_def' q).trans Rat.floor_def.symm

theorem roundHalf1_intCast (n : ℤ) : roundHalf1 ((n : ℤ) : ℚ) = (n : ℚ) := by
  rw [roundHalf1]
  by_cases h : (0:ℚ) ≤ (n:ℚ)
  · rw [if_pos h]
    have hf : ⌊((n:ℚ) * 10 + 1/2)⌋ = 10 * n := by
      rw [Int.floor_eq_iff]
      constructor
      · push_cast; linarith
      · push_cast; linarith
    rw [ratFloor_eq_intFloor, hf]
    push_cast
    ring
  · rw [if_neg h]
    have hf : ⌊(-((n:ℚ) * 10) + 1/2)⌋ = -(10 * n) := by
      rw [Int.floor_eq_iff]
      constructor
      · push_cast; linarith
      · push_cast; linarith
    rw [ratFloor_eq_intFloor, hf]
    push_cast
    ring

theorem avgTempOf_single (t : ℚ) (f : ℤ) :
    avgTempOf (hourlyBucket.mk t 1 f) = roundHalf1 t := by
  rw [avgTempOf_eq_roundHalf1]
  norm_num

theorem aggregate_mem_hours {rs : List Rec} (hpos : allNonneg rs) :
    ∀ r ∈ aggregateHistorical rs, ∃ p ∈ validSamples rs,
      dateutcKey r = Int.fdiv p.1 3600000 * 3600000 := by
  intro r hr
  have hre : r ∈ emitBuckets (hourlyBucketsOf rs) :=
    (aggregateHistorical_perm_emit rs).mem_iff.mp hr
  rw [emitBuckets_eq_map (count_pos_hourlyBucketsOf rs)] at hre
  obtain ⟨kb, hkb, rfl⟩ := List.mem_map.mp hre
  obtain ⟨hfirst, p, hp, hpk⟩ := bucket_facts_of_mem hpos hkb
  refine ⟨p, hp, ?_⟩
  rw [dateutcKey_bucketRecord, hfirst, ← hpk, hourKey_of_nonneg (hpos p hp)]

/-! ## Scheduler helper lemmas -/

theorem serveCmdLoop_outcome (evs : List SchedEvent) :
    (serveCmdLoop evs).2 =
      (if hasSignal evs then RunOutcome.returned none else RunOutcome.looping) := by
  induction evs with
  | nil => rfl
  | cons ev evs ih =>
    cases ev with
    | tick r =>
      cases r with
      | ok => simpa [serveCmdLoop, hasSignal, List.any_cons] using ih
      | failed err => simpa [serveCmdLoop, hasSignal, List.any_cons] using ih
    | signal name => simp [serveCmdLoop, hasSignal, List.any_cons]

theorem serverCmdLoop_outcome (evs : List SchedEvent) :
    (serverCmdLoop evs).2 =
      (if hasSignal evs then RunOutcome.returned none else RunOutcome.looping) := by
  induction evs with
  | nil => rfl
  | cons ev evs ih =>
    cases ev with
    | tick r =>
      cases r with
      | ok => simpa [serverCmdLoop, hasSignal, List.any_cons] using ih
      | failed err =>
        by_cases h : isRateLimited err <;>
          simpa [serverCmdLoop, h, hasSignal, List.any_cons] using ih
    | signal name => simp [serverCmdLoop, hasSignal, List.any_cons]

/-! ## Substring helper lemmas -/

theorem charsStart_append (pat rest : List Char) : charsStart pat (pat ++ rest) = true := by
  induction pat with
  | nil => rfl
  | cons p ps ih => simp [charsStart, ih]

theorem charsContain_nil_pat (s : List Char) : charsContain [] s = true := by
  induction s with
  | nil => rfl
  | cons c cs ih => simp [charsContain, charsStart]

theorem charsContain_append (a pat c : List Char) : charsContain pat (a ++ pat ++ c) = true := by
  induction a with
  | nil =>
    cases pat with
    | nil => simpa using charsContain_nil_pat c
    | cons p ps => simp [charsContain, charsStart, charsStart_append]
  | cons x xs ih =>
    show (charsStart pat (x :: (xs ++ pat ++ c)) || charsContain pat (xs ++ pat ++ c)) = true
    rw [ih, Bool.or_true]

theorem errorChars_webhookFailed (st : ℤ) (excerpt : String) :
    (GoErr.webhookFailed st excerpt).errorChars =
      "webhook request failed with status ".toList ++ (toString st).toList
        ++ ": ".toList ++ excerpt.toList := rfl

/-! ## Update reduction lemmas -/

theorem Update_response (latestResp : SourceResp DeviceResults)
    (histResp : SourceResp HistoricalResults) (mac : String) (w : WebhookData)
    (st : ℤ) (body : String) (hdata : Data latestResp histResp mac = Except.ok w) :
    Update latestResp histResp mac (PostOutcome.response st body) =
      (if st < 200 ∨ 300 ≤ st
       then (Except.error (GoErr.webhookFailed st (String.mk (body.toList.take 1024))), true)
       else (Except.ok (), true)) := by
  rw [Update.eq_def, hdata]

theorem Update_transport (latestResp : SourceResp DeviceResults)
    (histResp : SourceResp HistoricalResults) (mac : String) (w : WebhookData)
    (msg : String) (hdata : Data latestResp histResp mac = Except.ok w) :
    Update latestResp histResp mac (PostOutcome.transportFailed msg) =
      (Except.error (GoErr.webhookTransportErr msg), true) := by
  rw [Update.eq_def, hdata]

/-! ## The claims -/

/-- Claim C1, amended: the claim as stated fails on pre-epoch timestamps
(see the counterexample), where Go's truncating divisions do not floor; for
every input whose valid samples have non-negative timestamps that all fall in
the same UTC hour `h`, the aggregator emits exactly one record whose `tempf`
is the arithmetic mean of the parsed temperatures rounded to 1 decimal place
half away from zero (float64 arithmetic idealized as exact rationals), paired
with the start of that hour. -/
theorem claimC1 (rs : List Rec) (h : ℤ)
    (hne : validSamples rs ≠ [])
    (hpos : ∀ p ∈ validSamples rs, 0 ≤ p.1)
    (hsame : ∀ p ∈ validSamples rs, Int.fdiv p.1 3600000 = h) :
    aggregateHistorical rs =
      [[("tempf", GoVal.vFloat64 (roundHalf1 (meanTemp (validSamples rs)))),
        ("dateutc", GoVal.vInt64 (h * 3600000))]] := by
  have hkey : ∀ p ∈ validSamples rs, hourKey p.1 = h := fun p hp => by
    rw [hourKey_of_nonneg (hpos p hp)]; exact hsame p hp
  obtain ⟨q, qs, hv, hbs⟩ := hourlyBucketsOf_single hne hkey
  have hqmem : q ∈ validSamples rs := by rw [hv]; exact List.mem_cons_self _ _
  have hcnt : ∀ kb ∈ [(h, hourlyBucket.mk (q.2 + (qs.map Prod.snd).sum) (1 + qs.length)
      (hourStartMs q.1))], 0 < kb.2.Count := by
    intro kb hkb
    rw [List.mem_singleton] at hkb
    subst hkb
    show 0 < 1 + qs.length
    omega
  have hfirst : hourStartMs q.1 = h * 3600000 := by
    rw [hourStartMs_eq_hourKey_mul_of_nonneg (hpos q hqmem), hkey q hqmem]
  have havg : avgTempOf (hourlyBucket.mk (q.2 + (qs.map Prod.snd).sum) (1 + qs.length)
      (hourStartMs q.1)) = roundHalf1 (meanTemp (validSamples rs)) := by
    rw [avgTempOf_eq_roundHalf1]
    congr 1
    show (q.2 + (qs.map Prod.snd).sum) / ((1 + qs.length : ℕ) : ℚ) = meanTemp (validSamples rs)
    rw [meanTemp, hv, List.map_cons, List.sum_cons, List.length_cons]
    push_cast
    ring
  rw [aggregateHistorical, hbs, emitBuckets_eq_map hcnt]
  simp only [List.map_cons, List.map_nil]
  rw [sortByDateutc]
  simp only [List.insertionSort, List.orderedInsert]
  rw [bucketRecord]
  show [[("tempf", GoVal.vFloat64 (avgTempOf (hourlyBucket.mk (q.2 + (qs.map Prod.snd).sum)
      (1 + qs.length) (hourStartMs q.1)))),
    ("dateutc", GoVal.vInt64 (hourStartMs q.1))]] = _
  rw [havg, hfirst]

/-- Witness for C1 at the spec's worked example: hour 472222 of the epoch,
temperatures 70 and 72. -/
theorem claimC1_witness :
    aggregateHistorical c1rs =
      [[("tempf", GoVal.vFloat64 (roundHalf1 (meanTemp (validSamples c1rs)))),
        ("dateutc", GoVal.vInt64 (472222 * 3600000))]] :=
  claimC1 c1rs 472222 (by decide) (by decide) (by decide)

/-- Counterexample to C1 as stated: both samples of `c1neg` are valid and fall
in UTC hour -1, yet the aggregator emits two records, not one. -/
theorem claimC1_counterexample :
    validSamples c1neg ≠ [] ∧
    (∀ p ∈ validSamples c1neg, Int.fdiv p.1 3600000 = -1) ∧
    (aggregateHistorical c1neg).length ≠ 1 := by decide

/-- Claim C2, amended: the claim as stated fails on pre-epoch timestamps (see
the counterexample); for inputs whose valid samples have non-negative
timestamps, the output is sorted ascending by `dateutc`, its `dateutc` keys are
pairwise distinct (at most one record per hour), and every emitted `dateutc` is
the floor-to-hour of some valid input sample. -/
theorem claimC2 (rs : List Rec) (hpos : ∀ p ∈ validSamples rs, 0 ≤ p.1) :
    List.Sorted recLe (aggregateHistorical rs) ∧
    ((aggregateHistorical rs).map dateutcKey).Nodup ∧
    ∀ r ∈ aggregateHistorical rs, ∃ p ∈ validSamples rs,
      dateutcKey r = Int.fdiv p.1 3600000 * 3600000 :=
  ⟨sorted_aggregateHistorical rs, nodup_map_dateutcKey_aggregate hpos, aggregate_mem_hours hpos⟩

/-- Witness for C2 on a two-hour input. -/
theorem claimC2_witness :
    List.Sorted recLe (aggregateHistorical c2rs) ∧
    ((aggregateHistorical c2rs).map dateutcKey).Nodup ∧
    ∀ r ∈ aggregateHistorical c2rs, ∃ p ∈ validSamples c2rs,
      dateutcKey r = Int.fdiv p.1 3600000 * 3600000 :=
  claimC2 c2rs (by decide)

/-- Counterexample to C2 as stated: both samples of `c2neg` lie in the single
UTC hour -1, yet two records are emitted, with equal (hence non-distinct)
`dateutc` values. -/
theorem claimC2_counterexample :
    ((validSamples c2neg).map (fun p => Int.fdiv p.1 3600000)) = [-1, -1] ∧
    (aggregateHistorical c2neg).length = 2 ∧
    ¬ ((aggregateHistorical c2neg).map dateutcKey).Nodup := by decide

/-- Claim C3, amended: the claim as stated fails on pre-epoch timestamps (see
the counterexample, where two buckets tie on the emitted `dateutc` and the
order of the tied records depends on arrival order); for inputs whose valid
samples have non-negative timestamps, permuting the input never changes the
output. -/
theorem claimC3 (rs rs' : List Rec) (hperm : List.Perm rs' rs)
    (hpos : ∀ p ∈ validSamples rs, 0 ≤ p.1) :
    aggregateHistorical rs' = aggregateHistorical rs :=
  aggregateHistorical_perm_invariant hperm hpos

/-- Witness for C3: reversing a two-hour post-epoch input changes nothing. -/
theorem claimC3_witness :
    aggregateHistorical (c2rs.reverse) = aggregateHistorical c2rs :=
  claimC3 c2rs c2rs.reverse (by decide) (by decide)

theorem agg_c3a : aggregateHistorical c3a =
    [[("tempf", GoVal.vFloat64 (avgTempOf (hourlyBucket.mk 1 1 0))),
      ("dateutc", GoVal.vInt64 0)],
     [("tempf", GoVal.vFloat64 (avgTempOf (hourlyBucket.mk 3 1 0))),
      ("dateutc", GoVal.vInt64 0)]] := rfl

theorem agg_c3b : aggregateHistorical c3b =
    [[("tempf", GoVal.vFloat64 (avgTempOf (hourlyBucket.mk 3 1 0))),
      ("dateutc", GoVal.vInt64 0)],
     [("tempf", GoVal.vFloat64 (avgTempOf (hourlyBucket.mk 1 1 0))),
      ("dateutc", GoVal.vInt64 0)]] := rfl

/-- Counterexample to C3 as stated: `c3b` is a permutation of `c3a`, yet the
outputs differ (the two emitted records tie on `dateutc = 0`, and their order
follows bucket-creation order; in the actual Go code this order is furthermore
nondeterministic, as map iteration order is unspecified and `sort.Slice` is
unstable). -/
theorem claimC3_counterexample :
    List.Perm c3b c3a ∧ aggregateHistorical c3b ≠ aggregateHistorical c3a := by
  constructor
  · decide
  · intro heq
    rw [agg_c3a, agg_c3b] at heq
    have h3 : avgTempOf (hourlyBucket.mk 3 1 0) = avgTempOf (hourlyBucket.mk 1 1 0) := by
      exact (by simpa using heq : _ ∧ _).1
    rw [avgTempOf_single, avgTempOf_single] at h3
    have h1 : roundHalf1 1 = 1 := by simpa using roundHalf1_intCast 1
    have h3' : roundHalf1 3 = 3 := by simpa using roundHalf1_intCast 3
    rw [h1, h3'] at h3
    norm_num at h3

/-- Claim C4 (code bug): for the sample with `dateutc = -1800000` the code
stores `First = (-1800000/3600000)*3600000 = 0` — truncation toward zero — even
though its own comment says "Round down to the nearest hour" and the floor is
`-3600000`; moreover, for two same-bucket pre-epoch samples the stored `First`
depends on which sample arrived first. -/
theorem claimC4 :
    (aggregateHistorical c4rs).map dateutcKey = [0] ∧
    Int.fdiv (-1800000) 3600000 * 3600000 = -3600000 ∧
    (aggregateHistorical c4ab).map dateutcKey = [-3600000] ∧
    (aggregateHistorical c4ba).map dateutcKey = [0] := by decide

/-- Claim C5: malformed samples (missing or unparseable `tempf`/`dateutc`) are
excluded from every bucket and never produce an error; an empty or all-malformed
input yields an empty output with success. -/
theorem claimC5 (rs1 rs2 : List Rec) (r : Rec) (results : HistoricalResults)
    (hbad : parseSample r = none) (hcode : results.HTTPResponseCode = 200) :
    aggregateHistorical (rs1 ++ r :: rs2) = aggregateHistorical (rs1 ++ rs2) ∧
    Historical (SourceResp.ok results) = Except.ok (aggregateHistorical results.RecordFields) ∧
    aggregateHistorical [] = [] ∧
    ((∀ s ∈ results.RecordFields, parseSample s = none) →
      aggregateHistorical results.RecordFields = []) := by
  refine ⟨?_, ?_, rfl, ?_⟩
  · have hb : hourlyBucketsOf (rs1 ++ r :: rs2) = hourlyBucketsOf (rs1 ++ rs2) := by
      unfold hourlyBucketsOf
      rw [List.foldl_append, List.foldl_append, List.foldl_cons]
      simp only [hbad]
    rw [aggregateHistorical, hb, aggregateHistorical]
  · rw [Historical]
    rw [if_neg (by simp [hcode])]
  · intro hall
    have hv : validSamples results.RecordFields = [] :=
      List.filterMap_eq_nil_iff.mpr hall
    rw [aggregateHistorical, hourlyBucketsOf_eq_foldSamples, hv]
    rfl

/-- Witness for C5: a record whose temperature string does not parse is dropped,
and an all-malformed 200-response aggregates to the empty list without error. -/
theorem claimC5_witness :
    aggregateHistorical ([c5good] ++ c5bad :: []) = aggregateHistorical ([c5good] ++ []) ∧
    Historical (SourceResp.ok (HistoricalResults.mk 200 "" [c5bad])) =
      Except.ok (aggregateHistorical [c5bad]) ∧
    aggregateHistorical [] = [] ∧
    ((∀ s ∈ [c5bad], parseSample s = none) → aggregateHistorical [c5bad] = []) :=
  claimC5 [c5good] [] c5bad (HistoricalResults.mk 200 "" [c5bad]) (by decide) rfl

/-- Claim C6, amended: the claim as stated fails for the initial cycle (see the
counterexample: a failing initial Update makes Run return that error); within
the loop, tick-cycle failures never cause a return, the scheduler returns
exactly upon receipt of a signal and then with nil error, and after a
successful (or, in ServerCmd, rate-limited) initial cycle the run behaves as
the loop. -/
theorem claimC6 (evs : List SchedEvent) (e : GoErr) :
    (serveCmdLoop evs).2 =
      (if hasSignal evs then RunOutcome.returned none else RunOutcome.looping) ∧
    (serverCmdLoop evs).2 =
      (if hasSignal evs then RunOutcome.returned none else RunOutcome.looping) ∧
    (serveCmdRun CycleResult.ok evs).2 = (serveCmdLoop evs).2 ∧
    (serverCmdRun CycleResult.ok evs).2 = (serverCmdLoop evs).2 ∧
    (serveCmdRun (CycleResult.failed e) evs).2 = RunOutcome.returned (some e) ∧
    (serverCmdRun (CycleResult.failed e) evs).2 =
      (if isRateLimited e then (serverCmdLoop evs).2 else RunOutcome.returned (some e)) := by
  refine ⟨serveCmdLoop_outcome evs, serverCmdLoop_outcome evs, rfl, rfl, rfl, ?_⟩
  by_cases h : isRateLimited e <;> simp [serverCmdRun, h]

/-- Counterexample to C6 as stated: a failure of the initial UpdateCycle (here,
the NotFound of an empty device list, not rate-limited) makes both Run variants
return that error, without any signal. -/
theorem claimC6_counterexample :
    serveCmdRun (CycleResult.failed GoErr.zeroDeviceRecords) [] =
      ([SchedAction.runUpdate], RunOutcome.returned (some GoErr.zeroDeviceRecords)) ∧
    serverCmdRun (CycleResult.failed GoErr.zeroDeviceRecords) [] =
      ([SchedAction.runUpdate], RunOutcome.returned (some GoErr.zeroDeviceRecords)) := by
  decide

/-- Claim C7: a rate-limited tick failure (error message carrying "429") is not
fatal: that iteration runs Update once, resets the interval ticker, logs a
warning, and the loop continues with the remaining events — no immediate
retry. -/
theorem claimC7 (e : GoErr) (evs : List SchedEvent) (h : isRateLimited e = true) :
    serverCmdLoop (SchedEvent.tick (CycleResult.failed e) :: evs) =
      (SchedAction.runUpdate :: SchedAction.resetTicker :: SchedAction.warnRateLimited ::
        (serverCmdLoop evs).1,
       (serverCmdLoop evs).2) := by
  rw [serverCmdLoop, if_pos h]

/-- Witness for C7 at a source response with HTTP code 429. -/
theorem claimC7_witness :
    serverCmdLoop [SchedEvent.tick (CycleResult.failed
      (GoErr.unexpectedResponseCode 429 "x"))] =
      ([SchedAction.runUpdate, SchedAction.resetTicker, SchedAction.warnRateLimited],
       RunOutcome.looping) :=
  claimC7 (GoErr.unexpectedResponseCode 429 "x") [] (by decide)

/-- Claim C8: Latest fails with a NotFound-style error exactly when the source
responded 200 with zero device records or with no record whose MAC matches; and
whenever Latest fails, Update performs no webhook POST. -/
theorem claimC8 (resp : SourceResp DeviceResults) (mac : String)
    (histResp : SourceResp HistoricalResults) (post : PostOutcome) :
    ((∃ e, Latest resp mac = Except.error e ∧ isNotFoundErr e = true) ↔
      (∃ results, resp = SourceResp.ok results ∧ results.HTTPResponseCode = 200 ∧
        (results.DeviceRecord = [] ∨ ∀ dr ∈ results.DeviceRecord, mac ≠ dr.Macaddress))) ∧
    (∀ e, Latest resp mac = Except.error e → (Update resp histResp mac post).2 = false) := by
  constructor
  · cases resp with
    | failed msg =>
      simp [Latest, isNotFoundErr]
    | ok results =>
      by_cases hcode : results.HTTPResponseCode = 200
      · by_cases hemp : results.DeviceRecord = []
        · constructor
          · intro _
            exact ⟨results, rfl, hcode, Or.inl hemp⟩
          · intro _
            refine ⟨GoErr.zeroDeviceRecords, ?_, rfl⟩
            simp [Latest, hcode, hemp]
        · cases hfind : List.find? (fun r => mac == r.Macaddress) results.DeviceRecord with
          | some r =>
            constructor
            · intro ⟨e, he, _⟩
              rw [Latest] at he
              simp only [hcode] at he
              rw [if_neg (by simp)] at he
              rw [if_neg (by simpa using hemp)] at he
              rw [hfind] at he
              exact absurd he (by simp)
            · intro ⟨results', hr, _, hdisj⟩
              have hre : results' = results := by simpa using hr.symm
              rw [hre] at hdisj
              rcases hdisj with hdisj | hdisj
              · exact absurd hdisj hemp
              · have hrmem : r ∈ results.DeviceRecord := List.mem_of_find?_eq_some hfind
                have hrmac : mac = r.Macaddress := by
                  have := List.find?_some hfind
                  simpa using this
                exact absurd hrmac (hdisj r hrmem)
          | none =>
            constructor
            · intro _
              refine ⟨results, rfl, hcode, Or.inr ?_⟩
              intro dr hdr
              have := List.find?_eq_none.mp hfind dr hdr
              simpa using this
            · intro _
              refine ⟨GoErr.noDeviceData mac, ?_, rfl⟩
              rw [Latest]
              rw [if_neg (by simp [hcode])]
              rw [if_neg (by simpa using hemp)]
              rw [hfind]
      · constructor
        · intro ⟨e, he, hnf⟩
          rw [Latest, if_pos (by simpa using hcode)] at he
          have he' : e = GoErr.unexpectedResponseCode results.HTTPResponseCode
              results.JSONResponse := by
            simpa using he.symm
          rw [he'] at hnf
          exact absurd hnf (by simp [isNotFoundErr])
        · intro ⟨results', hr, hcode', _⟩
          have hre : results' = results := by simpa using hr.symm
          rw [hre] at hcode'
          exact absurd hcode' hcode
  · intro e he
    rw [Update.eq_def, Data.eq_def, he]

/-- Witness for C8: with zero device records, Latest fails and no POST is
attempted. -/
theorem claimC8_witness :
    (Update (SourceResp.ok (DeviceResults.mk 200 "" [])) (SourceResp.ok
      (HistoricalResults.mk 200 "" [])) "AA" (PostOutcome.response 200 "")).2 = false :=
  (claimC8 (SourceResp.ok (DeviceResults.mk 200 "" [])) "AA"
    (SourceResp.ok (HistoricalResults.mk 200 "" [])) (PostOutcome.response 200 "")).2
    GoErr.zeroDeviceRecords (by rfl)

/-- Claim C9: given the data step succeeded, Update succeeds after the POST
exactly when the webhook status is in 200–299; outside that range it returns a
webhook error carrying the status and a response-body excerpt limited to 1024
bytes, both of which appear in the error message; and a transport failure of
the POST also yields an error. -/
theorem claimC9 (latestResp : SourceResp DeviceResults) (histResp : SourceResp HistoricalResults)
    (mac : String) (st : ℤ) (body msg : String) (w : WebhookData)
    (hdata : Data latestResp histResp mac = Except.ok w) :
    ((Update latestResp histResp mac (PostOutcome.response st body)).1 = Except.ok () ↔
      200 ≤ st ∧ st < 300) ∧
    ((st < 200 ∨ 300 ≤ st) →
      (Update latestResp histResp mac (PostOutcome.response st body)).1 =
        Except.error (GoErr.webhookFailed st (String.mk (body.toList.take 1024))) ∧
      (String.mk (body.toList.take 1024)).length ≤ 1024 ∧
      charsContain (toString st).toList
        (GoErr.webhookFailed st (String.mk (body.toList.take 1024))).errorChars = true ∧
      charsContain (body.toList.take 1024)
        (GoErr.webhookFailed st (String.mk (body.toList.take 1024))).errorChars = true) ∧
    (∃ e, (Update latestResp histResp mac (PostOutcome.transportFailed msg)).1 =
      Except.error e) := by
  have hresp := Update_response latestResp histResp mac w st body hdata
  have htrans := Update_transport latestResp histResp mac w msg hdata
  refine ⟨?_, ?_, ?_⟩
  · rw [hresp]
    by_cases h : st < 200 ∨ 300 ≤ st
    · rw [if_pos h]
      constructor
      · intro he
        exact absurd he (by simp)
      · intro ⟨h1, h2⟩
        exact False.elim (by omega)
    · rw [if_neg h]
      simp only [not_or, not_lt, not_le] at h
      simp [h.1, h.2]
  · intro h
    rw [hresp, if_pos h]
    refine ⟨rfl, ?_, ?_, ?_⟩
    · show (body.toList.take 1024).length ≤ 1024
      simpa using List.length_take_le 1024 body.toList
    · rw [errorChars_webhookFailed]
      have h2 := charsContain_append "webhook request failed with status ".toList
        (toString st).toList (": ".toList ++ (String.mk (body.toList.take 1024)).toList)
      simpa [List.append_assoc] using h2
    · rw [errorChars_webhookFailed]
      have hx : (String.mk (body.toList.take 1024)).toList = body.toList.take 1024 := rfl
      rw [hx]
      have h2 := charsContain_append
        ("webhook request failed with status ".toList ++ (toString st).toList ++ ": ".toList)
        (body.toList.take 1024) []
      rw [List.append_nil] at h2
      simpa [List.append_assoc] using h2
  · rw [htrans]
    exact ⟨GoErr.webhookTransportErr msg, rfl⟩

/-- Witness for C9 at a webhook responding HTTP 503 with body "down". -/
theorem claimC9_witness :
    (Update c9latest c9hist "AA" (PostOutcome.response 503 "down")).1 =
      Except.error (GoErr.webhookFailed 503 (String.mk ("down".toList.take 1024))) ∧
    (String.mk ("down".toList.take 1024)).length ≤ 1024 ∧
    charsContain (toString (503 : ℤ)).toList
      (GoErr.webhookFailed 503 (String.mk ("down".toList.take 1024))).errorChars = true ∧
    charsContain ("down".toList.take 1024)
      (GoErr.webhookFailed 503 (String.mk ("down".toList.take 1024))).errorChars = true :=
  (claimC9 c9latest c9hist "AA" 503 "down" "boom"
    (WebhookData.mk (MergeVariables.mk [] [])) (by rfl)).2.1 (by omega)

/-- Claim C10: the emission phase is panic-free: every stored bucket has a
positive count (so the `Count > 0` guard never filters and the average never
divides by zero), and every emitted record stores `dateutc` as an `int64`
value, so the sort comparator's type assertion cannot fail. -/
theorem claimC10 (rs : List Rec) :
    (∀ kb ∈ hourlyBucketsOf rs, 1 ≤ kb.2.Count) ∧
    emitBuckets (hourlyBucketsOf rs) = (hourlyBucketsOf rs).map (fun kb => bucketRecord kb.2) ∧
    (∀ r ∈ aggregateHistorical rs, ∃ t : ℤ, r.lookup "dateutc" = some (GoVal.vInt64 t)) := by
  refine ⟨fun kb hkb => count_pos_hourlyBucketsOf rs kb hkb,
    emitBuckets_eq_map (count_pos_hourlyBucketsOf rs), ?_⟩
  intro r hr
  have hre : r ∈ emitBuckets (hourlyBucketsOf rs) :=
    (aggregateHistorical_perm_emit rs).mem_iff.mp hr
  rw [emitBuckets_eq_map (count_pos_hourlyBucketsOf rs)] at hre
  obtain ⟨kb, hkb, rfl⟩ := List.mem_map.mp hre
  exact ⟨kb.2.First, rfl⟩

/-- Witness for C10 on a one-record input. -/
theorem claimC10_witness :
    ∃ t : ℤ, List.lookup "dateutc"
      [("tempf", GoVal.vFloat64 (avgTempOf (hourlyBucket.mk 70 1 3600000))),
       ("dateutc", GoVal.vInt64 3600000)] = some (GoVal.vInt64 t) :=
  (claimC10 c10rs).2.2
    [("tempf", GoVal.vFloat64 (avgTempOf (hourlyBucket.mk 70 1 3600000))),
     ("dateutc", GoVal.vInt64 3600000)] (by rw [show aggregateHistorical c10rs =
      [[("tempf", GoVal.vFloat64 (avgTempOf (hourlyBucket.mk 70 1 3600000))),
        ("dateutc", GoVal.vInt64 3600000)]] from rfl]; exact List.mem_singleton.mpr rfl)

end TrmnlWthrSvr
